import Mathlib

/-!
Verification of the zod-to-mongoose conversion engine (`src/index.ts`).

The embedding models the Zod descriptor tree (`ZodType`), the modifier
unwrapper (`unwrapType`), the per-field converter (`convertField`), and the
public entry point (`createSchema`), each translated from the TypeScript
source.
-/

/-- A JavaScript value, as used for captured default values and the `null`
default annotation. -/
inductive Value where
  | vstr (s : String)
  | vnum (n : Int)
  | vbool (b : Bool)
  | vnull
  | vdate (ms : Int)
deriving DecidableEq, Repr

/-- A Zod descriptor node. Modifier layers (`znullable`, `zoptional`,
`zdefault`) wrap exactly one inner descriptor, mirroring the Zod library's
`def.innerType`. An object shape is an ordered list of entries; an entry
whose payload is `none` models incidental metadata in the shape that is not
a Zod field (the source skips entries failing `instanceof ZodType`).
`zdefault` carries the captured `def.defaultValue` (`none` models an absent
producer, i.e. the JS value `undefined`). -/
inductive ZodType where
  | zstring
  | znumber
  | zboolean
  | zdate
  | zarray (element : ZodType)
  | zobject (shape : List (String × Option ZodType))
  | zenum (options : List String)
  | zunion (members : List ZodType)
  | znull
  | zliteral (v : Value)
  | zsymbol
  | znullable (inner : ZodType)
  | zoptional (inner : ZodType)
  | zdefault (inner : ZodType) (value : Option Value)
deriving Repr

/-- Result of `unwrapType`: the core definition together with the captured
modifier flags and default value, as in the source's return object. -/
structure Unwrapped where
  defaultValue : Option Value
  definition : ZodType
  nullable : Bool
  optional : Bool
deriving Repr

/-- The loop body of `unwrapType` from the source: while the current
definition has an inner type, record nullable/optional flags and the default
value, then descend. The mutable loop variables become accumulators. -/
def unwrapGo : ZodType → Bool → Bool → Option Value → Unwrapped
  | ZodType.znullable t, _, op, dv => unwrapGo t true op dv
  | ZodType.zoptional t, nb, _, dv => unwrapGo t nb true dv
  | ZodType.zdefault t v, nb, op, _ => unwrapGo t nb op v
  | d, nb, op, dv => ⟨dv, d, nb, op⟩

/-- `unwrapType` from the source: strips modifier layers, starting with all
flags false and no default value. -/
def unwrapType (data : ZodType) : Unwrapped :=
  unwrapGo data false false none

/-- `sizeOf` of the unwrapped core is bounded by `sizeOf` of the input:
unwrapping only strips wrapper layers. Used for termination of the
converter. -/
theorem sizeOf_unwrapGo_le (z : ZodType) (nb op : Bool) (dv : Option Value) :
    sizeOf (unwrapGo z nb op dv).definition ≤ sizeOf z := by
  induction z, nb, op, dv using unwrapGo.induct <;> simp [unwrapGo] <;> omega

theorem sizeOf_unwrapType_le (z : ZodType) :
    sizeOf (unwrapType z).definition ≤ sizeOf z :=
  sizeOf_unwrapGo_le z false false none

mutual
/-- The target-side representation of one core descriptor
(`MongooseSchemaType` in the source): a primitive constructor marker, the
permissive `SchemaTypes.Mixed`, an enum spec `{enum: options, type: String}`,
a Mongoose `Schema` instance produced by the recursive `createSchema` call
for nested objects, or a one-element array wrapping either a plain converted
shape (array-of-object branch) or a converted element field spec. -/
inductive MType where
  | mstring
  | mnumber
  | mboolean
  | mdate
  | mmixed
  | menum (options : List String)
  | mschemaInst (defn : List (String × FieldSpec))
  | marrayShape (defn : List (String × FieldSpec))
  | marraySpec (element : FieldSpec)

/-- What `convertField` returns for one field: either the bare core type, or
the annotated object `{type: coreType, default: value}`. -/
inductive FieldSpec where
  | bare (t : MType)
  | withDefault (t : MType) (d : Value)
end

/-- The `TypeError`s thrown by `convertField`: the unsupported-kind error
from the switch's default branch, the two type-guard errors for the array
and enum cases, and the undetermined-core error at the end of the switch.
Each carries the offending field's name, as in the source messages. -/
inductive ConvError where
  | unsupportedType (fieldName : String)
  | expectedArray (fieldName : String)
  | expectedEnum (fieldName : String)
  | couldNotDetermine (fieldName : String)
deriving DecidableEq, Repr

/-- The annotation policy at the end of `convertField`: a nullable chain with
no captured default forces `{default: null}`; a captured default value is
attached as `{default: value}`; otherwise the bare core type is returned. -/
def annotate (nullable : Bool) (defaultValue : Option Value) (coreType : MType) :
    FieldSpec :=
  if nullable && defaultValue.isNone then
    FieldSpec.withDefault coreType Value.vnull
  else
    match defaultValue with
    | some v => FieldSpec.withDefault coreType v
    | none => FieldSpec.bare coreType

mutual
/-- `convertField` from the source: unwrap the modifier chain, dispatch on
the core definition, then apply the annotation policy. -/
def convertField (fieldName : String) (zodField : ZodType) :
    Except ConvError FieldSpec := do
  let unwrappedData := unwrapType zodField
  let coreType ← convertCore fieldName unwrappedData.definition
  pure (annotate unwrappedData.nullable unwrappedData.defaultValue coreType)
termination_by 2 * sizeOf zodField + 1
decreasing_by
  simp_wf
  have h := sizeOf_unwrapType_le zodField
  omega

/-- The switch of `convertField` on the unwrapped definition's kind tag,
together with the `isZodObject` check that follows it. Constructor dispatch
replaces the string tag: each case corresponds to one `case "..."` label.
The source's `isZodArray`/`isZodEnum` guards re-check what the tag already
implies, so under constructor dispatch their error branches are dead; the
`default`-tag case leaves the core type undetermined and reaches the final
`TypeError`, and tags outside the switch hit its `default:` branch. -/
def convertCore (fieldName : String) (definition : ZodType) :
    Except ConvError MType :=
  match definition with
  | ZodType.zarray element =>
    match element with
    | ZodType.zobject shape => do
        let convertedShape ← convertShape shape
        pure (MType.marrayShape convertedShape)
    | e => do
        let f ← convertField fieldName e
        pure (MType.marraySpec f)
  | ZodType.zboolean => pure MType.mboolean
  | ZodType.zdate => pure MType.mdate
  | ZodType.zdefault _ _ => Except.error (ConvError.couldNotDetermine fieldName)
  | ZodType.zenum options => pure (MType.menum options)
  | ZodType.znumber => pure MType.mnumber
  | ZodType.zobject shape => do
      let defn ← convertShape shape
      pure (MType.mschemaInst defn)
  | ZodType.zstring => pure MType.mstring
  | ZodType.zunion _ => pure MType.mmixed
  | ZodType.znull => Except.error (ConvError.unsupportedType fieldName)
  | ZodType.zliteral _ => Except.error (ConvError.unsupportedType fieldName)
  | ZodType.zsymbol => Except.error (ConvError.unsupportedType fieldName)
  | ZodType.znullable _ => Except.error (ConvError.unsupportedType fieldName)
  | ZodType.zoptional _ => Except.error (ConvError.unsupportedType fieldName)
termination_by 2 * sizeOf definition
decreasing_by
  all_goals simp_wf
  all_goals omega

/-- The shape-walking loop, shared by `createSchema` and the array-of-object
branch of `convertField`: iterate the declared entries in order, skip
entries that are not Zod fields, convert each field under its key. -/
def convertShape :
    List (String × Option ZodType) → Except ConvError (List (String × FieldSpec))
  | [] => pure []
  | (_, none) :: rest => convertShape rest
  | (key, some zodField) :: rest => do
      let f ← convertField key zodField
      let rest2 ← convertShape rest
      pure ((key, f) :: rest2)
termination_by s => 2 * sizeOf s
decreasing_by
  all_goals simp_wf
  all_goals omega
end

/-- A Mongoose connection handle; an external collaborator treated as an
opaque token with identity. -/
structure Connection where
  id : Nat
deriving DecidableEq, Repr

/-- A Mongoose `Schema` instance, holding the schema definition it was
constructed from (as exposed by `schema.obj`). -/
structure MongooseSchema where
  obj : List (String × FieldSpec)

/-- The handle returned by `connection.model(modelName, schema)`: the model
registered under the given name on the given connection. -/
structure MongooseModel where
  modelName : String
  connection : Connection
  schema : MongooseSchema

/-- `createSchema`'s two possible results: the bare schema, or
`{model, schema}`. -/
inductive CreateSchemaResult where
  | schemaOnly (schema : MongooseSchema)
  | withModel (model : MongooseModel) (schema : MongooseSchema)

/-- `createSchema` from the source, taking the object descriptor's declared
shape: walk the shape into a schema definition, construct the `Schema`, and
if a connection and a (truthy, i.e. non-empty) model name were supplied,
register and return the model alongside the schema. -/
def createSchema (zodObject : List (String × Option ZodType))
    (modelName : Option String) (connection : Option Connection) :
    Except ConvError CreateSchemaResult := do
  let convertedShape ← convertShape zodObject
  let schema : MongooseSchema := ⟨convertedShape⟩
  match connection, modelName with
  | some conn, some name =>
      if name = "" then pure (CreateSchemaResult.schemaOnly schema)
      else pure (CreateSchemaResult.withModel ⟨name, conn, schema⟩ schema)
  | _, _ => pure (CreateSchemaResult.schemaOnly schema)

/-- Reduction of `Except` bind on a success value. -/
theorem ebind_ok {α β : Type} (a : α) (f : α → Except ConvError β) :
    (Except.ok a >>= f : Except ConvError β) = f a := rfl

/-- Reduction of `Except` bind on an error. -/
theorem ebind_error {α β : Type} (e : ConvError) (f : α → Except ConvError β) :
    (Except.error e >>= f : Except ConvError β) = Except.error e := rfl

/-- `pure` on `Except` is `Except.ok`. -/
theorem epure {α : Type} (a : α) : (pure a : Except ConvError α) = Except.ok a := rfl

/-- The source's `isZodObject` type guard, used on the raw array element
before any unwrapping. -/
def isZodObjectB : ZodType → Bool
  | ZodType.zobject _ => true
  | _ => false

/-- Whether a descriptor is one of the three modifier wrapper layers (the
nodes whose `def` carries an `innerType`). -/
def isModifierLayer : ZodType → Bool
  | ZodType.znullable _ => true
  | ZodType.zoptional _ => true
  | ZodType.zdefault _ _ => true
  | _ => false

/-- Unwrapping runs until no modifier layer remains: the returned core is
never a nullable/optional/default wrapper. -/
theorem unwrapGo_not_modifier (z : ZodType) (nb op : Bool) (dv : Option Value) :
    isModifierLayer (unwrapGo z nb op dv).definition = false := by
  induction z, nb, op, dv using unwrapGo.induct <;>
    simp_all [unwrapGo, isModifierLayer]

theorem unwrapType_not_modifier (z : ZodType) :
    isModifierLayer (unwrapType z).definition = false :=
  unwrapGo_not_modifier z false false none

/-- The `optional` accumulator never influences the other three components
of the unwrap result. -/
theorem unwrapGo_op_irrel (z : ZodType) (nb op : Bool) (dv : Option Value) :
    ∀ op' : Bool,
      (unwrapGo z nb op dv).definition = (unwrapGo z nb op' dv).definition ∧
      (unwrapGo z nb op dv).nullable = (unwrapGo z nb op' dv).nullable ∧
      (unwrapGo z nb op dv).defaultValue = (unwrapGo z nb op' dv).defaultValue := by
  induction z, nb, op, dv using unwrapGo.induct with
  | case1 t x op dv ih => intro op'; simpa [unwrapGo] using ih op'
  | case2 t nb x dv ih => intro op'; simp [unwrapGo]
  | case3 t v nb op x ih => intro op'; simpa [unwrapGo] using ih op'
  | case4 d nb op dv h1 h2 h3 =>
      intro op'
      cases d <;> simp_all [unwrapGo]

/-- One-step unfolding of `convertField`: dispatch the unwrapped core, then
annotate on success. -/
theorem convertField_eq (fieldName : String) (zodField : ZodType) :
    convertField fieldName zodField =
      match convertCore fieldName (unwrapType zodField).definition with
      | Except.error e => Except.error e
      | Except.ok coreType =>
          Except.ok (annotate (unwrapType zodField).nullable
            (unwrapType zodField).defaultValue coreType) := by
  unfold convertField
  cases h : convertCore fieldName (unwrapType zodField).definition <;>
    simp [h, ebind_ok, ebind_error, epure]

/-- Binding a pure continuation cannot turn a success into an error. -/
theorem bind_pure_error {α β : Type} (x : Except ConvError α) (g : α → β)
    (e : ConvError) (h : (x >>= fun a => pure (g a)) = Except.error e) :
    x = Except.error e := by
  cases x with
  | error e2 =>
      rw [ebind_error] at h
      injection h with h2
      rw [h2]
  | ok a => rw [ebind_ok, epure] at h; cases h

/-- Error classification for the whole converter: `convertField` and
`convertShape` can only fail with the unsupported-kind error; `convertCore`
can additionally fail only when handed a modifier layer directly (which
`convertField` never does, since it always unwraps first). -/
theorem convert_error_unsupported :
    (∀ (name : String) (z : ZodType) (e : ConvError),
        convertField name z = Except.error e →
        ∃ f, e = ConvError.unsupportedType f) ∧
    (∀ (name : String) (d : ZodType) (e : ConvError),
        convertCore name d = Except.error e →
        (∃ f, e = ConvError.unsupportedType f) ∨ isModifierLayer d = true) ∧
    (∀ (s : List (String × Option ZodType)) (e : ConvError),
        convertShape s = Except.error e →
        ∃ f, e = ConvError.unsupportedType f) := by
  refine convertField.mutual_induct
    (fun name z => ∀ e, convertField name z = Except.error e →
      ∃ f, e = ConvError.unsupportedType f)
    (fun name d => ∀ e, convertCore name d = Except.error e →
      (∃ f, e = ConvError.unsupportedType f) ∨ isModifierLayer d = true)
    (fun s => ∀ e, convertShape s = Except.error e →
      ∃ f, e = ConvError.unsupportedType f)
    ?_ ?_ ?_ ?_ ?_ ?_ ?_ ?_ ?_ ?_ ?_ ?_ ?_ ?_ ?_ ?_ ?_ ?_ ?_
  · intro name z u ih e h
    rw [convertField_eq] at h
    cases hc : convertCore name (unwrapType z).definition with
    | error e2 =>
        rw [hc] at h
        simp only [Except.error.injEq] at h
        subst h
        rcases ih e2 hc with good | bad
        · exact good
        · rw [unwrapType_not_modifier z] at bad
          cases bad
    | ok ct => rw [hc] at h; cases h
  · intro name shape ih e h
    simp only [convertCore] at h
    cases hs : convertShape shape with
    | error e2 =>
        rw [hs, ebind_error] at h
        simp only [Except.error.injEq] at h
        subst h
        exact Or.inl (ih e2 hs)
    | ok fs => rw [hs, ebind_ok, epure] at h; cases h
  · intro name el hne ih e h
    cases el <;>
      first
        | exact absurd rfl (hne _)
        | (simp only [convertCore] at h
           exact Or.inl (ih e (bind_pure_error _ _ _ h)))
  · intro name e h; simp [convertCore, epure] at h
  · intro name e h; simp [convertCore, epure] at h
  · intro name inner value e h
    simp only [convertCore, Except.error.injEq] at h
    subst h
    exact Or.inr rfl
  · intro name options e h; simp [convertCore, epure] at h
  · intro name e h; simp [convertCore, epure] at h
  · intro name shape ih e h
    simp only [convertCore] at h
    cases hs : convertShape shape with
    | error e2 =>
        rw [hs, ebind_error] at h
        simp only [Except.error.injEq] at h
        subst h
        exact Or.inl (ih e2 hs)
    | ok fs => rw [hs, ebind_ok, epure] at h; cases h
  · intro name e h; simp [convertCore, epure] at h
  · intro name members e h; simp [convertCore, epure] at h
  · intro name e h
    simp only [convertCore, Except.error.injEq] at h
    exact Or.inl ⟨name, h.symm⟩
  · intro name v e h
    simp only [convertCore, Except.error.injEq] at h
    exact Or.inl ⟨name, h.symm⟩
  · intro name e h
    simp only [convertCore, Except.error.injEq] at h
    exact Or.inl ⟨name, h.symm⟩
  · intro name inner e h
    simp only [convertCore, Except.error.injEq] at h
    exact Or.inl ⟨name, h.symm⟩
  · intro name inner e h
    simp only [convertCore, Except.error.injEq] at h
    exact Or.inl ⟨name, h.symm⟩
  · intro e h; simp [convertShape, epure] at h
  · intro fst rest ih e h
    simp only [convertShape] at h
    exact ih e h
  · intro key zodField rest ih1 ih3 e h
    simp only [convertShape] at h
    cases hf : convertField key zodField with
    | error e2 =>
        rw [hf, ebind_error] at h
        simp only [Except.error.injEq] at h
        subst h
        exact ih1 e2 hf
    | ok f =>
        rw [hf, ebind_ok] at h
        cases hs : convertShape rest with
        | error e2 =>
            rw [hs, ebind_error] at h
            simp only [Except.error.injEq] at h
            subst h
            exact ih3 e2 hs
        | ok fs => rw [hs, ebind_ok, epure] at h; cases h

/-- C1 counterexample: on the two-member union whose second member is the
null literal, `convertField` returns the bare permissive `Mixed` marker, not
the other member's mapping with a forced null default as the claim states. -/
theorem union_null_special_case_cex :
    convertField "salutation" (ZodType.zunion [ZodType.zstring, ZodType.znull]) =
      Except.ok (FieldSpec.bare MType.mmixed) ∧
    (Except.ok (FieldSpec.bare MType.mmixed) :
        Except ConvError FieldSpec) ≠
      Except.ok (FieldSpec.withDefault MType.mstring Value.vnull) := by
  constructor
  · simp [convertField, convertCore, unwrapType, unwrapGo, annotate,
      ebind_ok, ebind_error, epure]
  · simp

/-- C1 amended: every union descriptor, including the two-member case with a
null literal member, maps to the bare permissive accept-any marker
(`SchemaTypes.Mixed`); no union receives special treatment. -/
theorem union_always_mixed (name : String) (members : List ZodType) :
    convertField name (ZodType.zunion members) =
      Except.ok (FieldSpec.bare MType.mmixed) := by
  simp [convertField, convertCore, unwrapType, unwrapGo, annotate,
    ebind_ok, ebind_error, epure]

/-- C2: the annotation policy of `convertField`. Whenever the unwrapped core
converts successfully to `ct`: a nullable chain with no captured default
yields `{type: ct, default: null}`; a captured default value `v` yields
`{type: ct, default: v}` regardless of the nullable flag (explicit default
takes precedence over the nullable-forced null); with neither, the bare core
type is returned. -/
theorem convertField_annotation_policy (name : String) (d : ZodType)
    (ct : MType)
    (h : convertCore name (unwrapType d).definition = Except.ok ct) :
    ((unwrapType d).nullable = true → (unwrapType d).defaultValue = none →
        convertField name d = Except.ok (FieldSpec.withDefault ct Value.vnull)) ∧
    (∀ v : Value, (unwrapType d).defaultValue = some v →
        convertField name d = Except.ok (FieldSpec.withDefault ct v)) ∧
    ((unwrapType d).nullable = false → (unwrapType d).defaultValue = none →
        convertField name d = Except.ok (FieldSpec.bare ct)) := by
  refine ⟨?_, ?_, ?_⟩
  · intro hn hd
    rw [convertField_eq, h, hn, hd]
    simp [annotate]
  · intro v hd
    rw [convertField_eq, h, hd]
    simp [annotate]
  · intro hn hd
    rw [convertField_eq, h, hn, hd]
    simp [annotate]

/-- Witness for the annotation policy at concrete inputs: a nullable string
gets a null default, a string with default "Bob" keeps it (also under an
outer nullable layer), and a plain string stays bare. -/
theorem convertField_annotation_policy_witness :
    convertField "deletedAt" (ZodType.znullable ZodType.zstring) =
      Except.ok (FieldSpec.withDefault MType.mstring Value.vnull) ∧
    convertField "name"
        (ZodType.znullable (ZodType.zdefault ZodType.zstring
          (some (Value.vstr "Bob")))) =
      Except.ok (FieldSpec.withDefault MType.mstring (Value.vstr "Bob")) ∧
    convertField "name" ZodType.zstring = Except.ok (FieldSpec.bare MType.mstring) := by
  have hev : ∀ name : String,
      convertCore name ZodType.zstring = Except.ok MType.mstring := by
    intro name
    simp [convertCore, epure]
  refine ⟨?_, ?_, ?_⟩
  · exact (convertField_annotation_policy "deletedAt"
      (ZodType.znullable ZodType.zstring) MType.mstring
      (hev "deletedAt")).1 rfl rfl
  · exact (convertField_annotation_policy "name"
      (ZodType.znullable (ZodType.zdefault ZodType.zstring
        (some (Value.vstr "Bob")))) MType.mstring (hev "name")).2.1
      (Value.vstr "Bob") rfl
  · exact (convertField_annotation_policy "name" ZodType.zstring
      MType.mstring (hev "name")).2.2 rfl rfl

/-- The `optional` accumulator, once set, is carried unchanged to the
result. -/
theorem unwrapGo_optional_sticky (z : ZodType) (nb : Bool) (dv : Option Value) :
    (unwrapGo z nb true dv).optional = true := by
  suffices h : ∀ (z : ZodType) (nb op : Bool) (dv : Option Value), op = true →
      (unwrapGo z nb op dv).optional = true by
    exact h z nb true dv rfl
  intro z nb op dv
  induction z, nb, op, dv using unwrapGo.induct with
  | case1 t x op dv ih => intro hop; exact ih hop
  | case2 t nb x dv ih => intro hop; exact ih rfl
  | case3 t v nb op x ih => intro hop; exact ih hop
  | case4 d nb op dv h1 h2 h3 =>
      intro hop
      cases d <;> simp_all [unwrapGo]

/-- C10: the optional modifier never affects the output — converting
`optional(d)` gives exactly the conversion of `d` — even though the optional
flag is captured (set to true) during unwrapping. -/
theorem optional_never_affects_output (name : String) (d : ZodType) :
    convertField name (ZodType.zoptional d) = convertField name d ∧
    (unwrapType (ZodType.zoptional d)).optional = true := by
  constructor
  · have hu : unwrapType (ZodType.zoptional d) = unwrapGo d false true none := rfl
    have hd : unwrapType d = unwrapGo d false false none := rfl
    obtain ⟨h1, h2, h3⟩ := unwrapGo_op_irrel d false true none false
    rw [convertField_eq, convertField_eq, hu, hd, h1, h2, h3]
  · exact unwrapGo_optional_sticky d false none

/-- The declared field keys of an object shape: keys of entries that hold a
Zod field, in declared order; metadata entries contribute nothing. -/
def fieldKeys : List (String × Option ZodType) → List String
  | [] => []
  | (_, none) :: rest => fieldKeys rest
  | (k, some _) :: rest => k :: fieldKeys rest

/-- C5: when the shape walk succeeds, the resulting schema definition's keys
are exactly the declared field keys, in declared order — metadata entries
are skipped, and no extra keys appear. -/
theorem walk_keys_exact (s : List (String × Option ZodType))
    (fields : List (String × FieldSpec))
    (h : convertShape s = Except.ok fields) :
    fields.map Prod.fst = fieldKeys s := by
  induction s generalizing fields with
  | nil =>
      simp only [convertShape, epure, Except.ok.injEq] at h
      subst h
      rfl
  | cons hd rest ih =>
      obtain ⟨k, o⟩ := hd
      cases o with
      | none =>
          simp only [convertShape] at h
          simpa [fieldKeys] using ih fields h
      | some z =>
          simp only [convertShape] at h
          cases hf : convertField k z with
          | error e => rw [hf, ebind_error] at h; cases h
          | ok f =>
              rw [hf, ebind_ok] at h
              cases hs : convertShape rest with
              | error e => rw [hs, ebind_error] at h; cases h
              | ok fs =>
                  rw [hs, ebind_ok, epure] at h
                  injection h with h2
                  subst h2
                  simpa [fieldKeys] using ih fs hs

/-- Witness for the key-exactness of the walk: a shape with two fields and a
metadata entry in between yields exactly the two field keys. -/
theorem walk_keys_exact_witness :
    ([("name", FieldSpec.bare MType.mstring),
      ("age", FieldSpec.bare MType.mnumber)].map Prod.fst : List String) =
      fieldKeys [("name", some ZodType.zstring), ("meta", none),
        ("age", some ZodType.znumber)] := by
  refine walk_keys_exact _ _ ?_
  simp [convertShape, convertField, convertCore, unwrapType, unwrapGo,
    annotate, ebind_ok, ebind_error, epure]

/-- C6: mapping of array descriptors. If the raw element is an object
descriptor, the result is the one-element array wrapping the plain nested
shape (not an array of arrays, and not a `Schema` instance); otherwise the
result is the one-element array wrapping `convertField` of the element, so
the element's own modifiers are honored recursively. -/
theorem array_mapping (name : String) (elem : ZodType) :
    (∀ shape : List (String × Option ZodType), elem = ZodType.zobject shape →
        convertField name (ZodType.zarray elem) =
          Except.map (fun fs => FieldSpec.bare (MType.marrayShape fs))
            (convertShape shape)) ∧
    (isZodObjectB elem = false →
        convertField name (ZodType.zarray elem) =
          Except.map (fun f => FieldSpec.bare (MType.marraySpec f))
            (convertField name elem)) := by
  constructor
  · intro shape he
    subst he
    rw [convertField_eq]
    have hu : (unwrapType (ZodType.zarray (ZodType.zobject shape))) =
        ⟨none, ZodType.zarray (ZodType.zobject shape), false, false⟩ := rfl
    rw [hu]
    simp only [convertCore]
    cases hs : convertShape shape with
    | error e => simp [ebind_error, Except.map]
    | ok fs => simp [ebind_ok, epure, annotate, Except.map]
  · intro hne
    rw [convertField_eq]
    have hu : (unwrapType (ZodType.zarray elem)) =
        ⟨none, ZodType.zarray elem, false, false⟩ := rfl
    rw [hu]
    have hm : convertCore name (ZodType.zarray elem) =
        convertField name elem >>= fun f => pure (MType.marraySpec f) := by
      cases elem <;> first
        | (simp [convertCore]; done)
        | simp [isZodObjectB] at hne
    rw [hm]
    cases hf : convertField name elem with
    | error e => simp [ebind_error, Except.map]
    | ok f => simp [ebind_ok, epure, annotate, Except.map]

/-- Witness for the array mapping at concrete inputs: an array of a
two-field object yields the single-shape-element form, and an array of
strings yields the single-marker form. -/
theorem array_mapping_witness :
    convertField "items"
        (ZodType.zarray (ZodType.zobject
          [("name", some ZodType.zstring), ("value", some ZodType.znumber)])) =
      Except.map (fun fs => FieldSpec.bare (MType.marrayShape fs))
        (convertShape
          [("name", some ZodType.zstring), ("value", some ZodType.znumber)]) ∧
    convertField "items" (ZodType.zarray ZodType.zstring) =
      Except.map (fun f => FieldSpec.bare (MType.marraySpec f))
        (convertField "items" ZodType.zstring) :=
  ⟨(array_mapping "items" _).1 _ rfl, (array_mapping "items" _).2 rfl⟩

/-- C7: `createSchema` returns `{model, schema}` — with the model registered
under the given name on the given connection — exactly when both a
connection and a (non-empty, the source's truthiness test) model name are
supplied; in every other case it returns the bare schema. -/
theorem createSchema_model_exactly_when_supplied
    (s : List (String × Option ZodType)) (mn : Option String)
    (conn : Option Connection) (fields : List (String × FieldSpec))
    (h : convertShape s = Except.ok fields) :
    (∀ (name : String) (c : Connection), mn = some name → name ≠ "" →
        conn = some c →
        createSchema s mn conn =
          Except.ok (CreateSchemaResult.withModel ⟨name, c, ⟨fields⟩⟩ ⟨fields⟩)) ∧
    ((mn = none ∨ mn = some "" ∨ conn = none) →
        createSchema s mn conn =
          Except.ok (CreateSchemaResult.schemaOnly ⟨fields⟩)) := by
  constructor
  · intro name c hmn hne hc
    subst hmn
    subst hc
    unfold createSchema
    rw [h, ebind_ok]
    simp [hne, epure]
  · intro hcase
    unfold createSchema
    rw [h, ebind_ok]
    rcases hcase with hmn | hmn | hc
    · subst hmn; cases conn <;> simp [epure]
    · subst hmn; cases conn <;> simp [epure]
    · subst hc; cases mn <;> simp [epure]

/-- Witness for the model-return rule at concrete inputs: supplying name
"flat" and a connection yields `{model, schema}`; omitting both yields the
bare schema. -/
theorem createSchema_model_exactly_when_supplied_witness :
    createSchema [("name", some ZodType.zstring)] (some "flat")
        (some ⟨0⟩) =
      Except.ok (CreateSchemaResult.withModel
        ⟨"flat", ⟨0⟩, ⟨[("name", FieldSpec.bare MType.mstring)]⟩⟩
        ⟨[("name", FieldSpec.bare MType.mstring)]⟩) ∧
    createSchema [("name", some ZodType.zstring)] none none =
      Except.ok (CreateSchemaResult.schemaOnly
        ⟨[("name", FieldSpec.bare MType.mstring)]⟩) := by
  have hs : convertShape [("name", some ZodType.zstring)] =
      Except.ok [("name", FieldSpec.bare MType.mstring)] := by
    simp [convertShape, convertField, convertCore, unwrapType, unwrapGo,
      annotate, ebind_ok, ebind_error, epure]
  constructor
  · exact (createSchema_model_exactly_when_supplied _ _ _ _ hs).1 "flat" ⟨0⟩
      rfl (by simp) rfl
  · exact (createSchema_model_exactly_when_supplied _ _ _ _ hs).2 (Or.inl rfl)

/-- C9: calling `createSchema` with an empty-string model name behaves
exactly like omitting the model name: the bare schema is returned and no
model is registered, whatever the connection argument. -/
theorem empty_model_name_like_omitted (s : List (String × Option ZodType))
    (conn : Option Connection) :
    createSchema s (some "") conn = createSchema s none conn ∧
    (∀ fields : List (String × FieldSpec), convertShape s = Except.ok fields →
        createSchema s (some "") conn =
          Except.ok (CreateSchemaResult.schemaOnly ⟨fields⟩)) := by
  constructor
  · unfold createSchema
    cases hs : convertShape s with
    | error e => rw [ebind_error, ebind_error]
    | ok fields => rw [ebind_ok, ebind_ok]; cases conn <;> simp [epure]
  · intro fields h
    unfold createSchema
    rw [h, ebind_ok]
    cases conn <;> simp [epure]

/-- Witness for the empty-model-name rule: the repository test's call with
an empty object, the empty name and a live connection returns the bare
schema, equal to the omitted-name call. -/
theorem empty_model_name_like_omitted_witness :
    createSchema [] (some "") (some ⟨7⟩) = createSchema [] none (some ⟨7⟩) ∧
    createSchema [] (some "") (some ⟨7⟩) =
      Except.ok (CreateSchemaResult.schemaOnly ⟨[]⟩) :=
  ⟨(empty_model_name_like_omitted [] (some ⟨7⟩)).1,
   (empty_model_name_like_omitted [] (some ⟨7⟩)).2 []
     (by simp [convertShape, epure])⟩

/-- C3: the mapper raises only the unsupported-kind error. Every error from
`convertField` or from `createSchema` is `ConvError.unsupportedType` naming
a field (never the array/enum guard errors nor the undetermined-core
error), and unwrapping anomalies never raise: `unwrapType` is total, and a
default layer with an absent value producer unwraps silently, capturing no
default. -/
theorem mapper_raises_only_unsupported :
    (∀ (name : String) (z : ZodType) (e : ConvError),
        convertField name z = Except.error e →
        ∃ f, e = ConvError.unsupportedType f) ∧
    (∀ (s : List (String × Option ZodType)) (mn : Option String)
        (conn : Option Connection) (e : ConvError),
        createSchema s mn conn = Except.error e →
        ∃ f, e = ConvError.unsupportedType f) ∧
    (∀ z : ZodType, unwrapType (ZodType.zdefault z none) = unwrapType z) := by
  refine ⟨convert_error_unsupported.1, ?_, fun z => rfl⟩
  intro s mn conn e h
  unfold createSchema at h
  cases hs : convertShape s with
  | error e2 =>
      rw [hs, ebind_error] at h
      injection h with h2
      subst h2
      exact convert_error_unsupported.2.2 s e2 hs
  | ok fields =>
      rw [hs, ebind_ok] at h
      cases conn with
      | none => simp [epure] at h
      | some c =>
          cases mn with
          | none => simp [epure] at h
          | some nm =>
              by_cases hnm : nm = "" <;> simp [hnm, epure] at h

/-- Witness for the error classification: the repository test's unsupported
field (`z.symbol()`) produces exactly an unsupported-kind error. -/
theorem mapper_raises_only_unsupported_witness :
    ∃ f, ConvError.unsupportedType "test" = ConvError.unsupportedType f :=
  mapper_raises_only_unsupported.1 "test" ZodType.zsymbol
    (ConvError.unsupportedType "test")
    (by simp [convertField, convertCore, unwrapType, unwrapGo, annotate,
      ebind_ok, ebind_error, epure])

/-- Whether a descriptor's unwrapped core is outside the supported closed
kind set of the switch (a null literal, a non-null literal, or any other
kind such as symbol). -/
def unsupportedCore (t : ZodType) : Bool :=
  match (unwrapType t).definition with
  | ZodType.znull => true
  | ZodType.zliteral _ => true
  | ZodType.zsymbol => true
  | _ => false

/-- A field whose core kind is unsupported converts to the unsupported-kind
error naming that field. -/
theorem convertField_unsupportedCore (k : String) (t : ZodType)
    (h : unsupportedCore t = true) :
    convertField k t = Except.error (ConvError.unsupportedType k) := by
  rw [convertField_eq]
  unfold unsupportedCore at h
  cases hd : (unwrapType t).definition <;> rw [hd] at h <;>
    simp_all [convertCore]

/-- If some declared field of the shape has an unsupported core kind, the
whole walk fails with an unsupported-kind error. -/
theorem convertShape_unsupported_mem (k : String) (t : ZodType)
    (huns : unsupportedCore t = true) :
    ∀ s : List (String × Option ZodType), (k, some t) ∈ s →
      ∃ f, convertShape s = Except.error (ConvError.unsupportedType f) := by
  intro s
  induction s with
  | nil => intro hmem; cases hmem
  | cons hd rest ih =>
      intro hmem
      obtain ⟨k2, o⟩ := hd
      cases o with
      | none =>
          have h2 : (k, some t) ∈ rest := by
            rcases List.mem_cons.mp hmem with heq | h2
            · simp at heq
            · exact h2
          obtain ⟨f, hf⟩ := ih h2
          exact ⟨f, by simp only [convertShape]; exact hf⟩
      | some z =>
          simp only [convertShape]
          cases hf : convertField k2 z with
          | error e =>
              obtain ⟨f, hfe⟩ := convert_error_unsupported.1 k2 z e hf
              subst hfe
              exact ⟨f, by rw [ebind_error]⟩
          | ok fspec =>
              rcases List.mem_cons.mp hmem with heq | h2
              · injection heq with hk ho
                injection ho with hz
                subst hk
                subst hz
                rw [convertField_unsupportedCore k t huns] at hf
                cases hf
              · obtain ⟨f, hfr⟩ := ih h2
                refine ⟨f, ?_⟩
                rw [ebind_ok, hfr, ebind_error]

/-- The walk fails with the unsupported-kind error naming exactly the
offending field's key, when every recognized field entry declared before it
converts successfully (in particular when it is the only offender). -/
theorem convertShape_first_unsupported (k : String) (t : ZodType)
    (huns : unsupportedCore t = true) :
    ∀ pre post : List (String × Option ZodType),
      (∀ (k2 : String) (z2 : ZodType), (k2, some z2) ∈ pre →
          ∃ f2, convertField k2 z2 = Except.ok f2) →
      convertShape (pre ++ (k, some t) :: post) =
        Except.error (ConvError.unsupportedType k) := by
  intro pre
  induction pre with
  | nil =>
      intro post hpre
      simp only [List.nil_append, convertShape]
      rw [convertField_unsupportedCore k t huns, ebind_error]
  | cons hd pre2 ih =>
      intro post hpre
      obtain ⟨k2, o⟩ := hd
      cases o with
      | none =>
          simp only [List.cons_append, convertShape]
          exact ih post (fun k3 z3 h3 => hpre k3 z3 (List.mem_cons_of_mem _ h3))
      | some z2 =>
          obtain ⟨f2, hf2⟩ := hpre k2 z2 (List.mem_cons_self _ _)
          simp only [List.cons_append, convertShape]
          rw [hf2, ebind_ok,
            ih post (fun k3 z3 h3 => hpre k3 z3 (List.mem_cons_of_mem _ h3)),
            ebind_error]

/-- C4: an object shape containing a declared field whose core kind is
outside the supported closed set makes the whole `createSchema` call abort
with an unsupported-kind error — since the result is an error, no partial
schema definition is returned — and the error names that field: whenever
every recognized field declared before the offender converts successfully
(in particular when the offender is the only unsupported field), the error
carries exactly the offending field's key. -/
theorem unsupported_field_aborts (s : List (String × Option ZodType))
    (mn : Option String) (conn : Option Connection) :
    (∀ (k : String) (t : ZodType), (k, some t) ∈ s → unsupportedCore t = true →
        ∃ f, createSchema s mn conn = Except.error (ConvError.unsupportedType f)) ∧
    (∀ (pre post : List (String × Option ZodType)) (k : String) (t : ZodType),
        s = pre ++ (k, some t) :: post → unsupportedCore t = true →
        (∀ (k2 : String) (z2 : ZodType), (k2, some z2) ∈ pre →
            ∃ f2, convertField k2 z2 = Except.ok f2) →
        createSchema s mn conn = Except.error (ConvError.unsupportedType k)) := by
  constructor
  · intro k t hmem huns
    obtain ⟨f, hf⟩ := convertShape_unsupported_mem k t huns s hmem
    refine ⟨f, ?_⟩
    unfold createSchema
    rw [hf, ebind_error]
  · intro pre post k t hs huns hpre
    subst hs
    unfold createSchema
    rw [convertShape_first_unsupported k t huns pre post hpre, ebind_error]

/-- Witness for the abort-on-unsupported rule: the repository test's single
`z.symbol()` field aborts the call, and with a supported field declared
before the `z.symbol()` field the error names exactly "test". -/
theorem unsupported_field_aborts_witness :
    (∃ f, createSchema [("test", some ZodType.zsymbol)] none none =
        Except.error (ConvError.unsupportedType f)) ∧
    createSchema [("name", some ZodType.zstring), ("test", some ZodType.zsymbol)]
        none none =
      Except.error (ConvError.unsupportedType "test") := by
  constructor
  · exact (unsupported_field_aborts [("test", some ZodType.zsymbol)]
      none none).1 "test" ZodType.zsymbol (by simp) rfl
  · refine (unsupported_field_aborts _ none none).2
      [("name", some ZodType.zstring)] [] "test" ZodType.zsymbol rfl rfl ?_
    intro k2 z2 h2
    simp only [List.mem_singleton, Prod.mk.injEq, Option.some.injEq] at h2
    obtain ⟨hk, hz⟩ := h2
    subst hk
    subst hz
    exact ⟨FieldSpec.bare MType.mstring,
      by simp [convertField, convertCore, unwrapType, unwrapGo, annotate,
        ebind_ok, ebind_error, epure]⟩

mutual
/-- The nesting depth of a descriptor, counting one level per recursive
`convertField`/shape-walk call the converter makes: modifier layers add
nothing (they are consumed by the unwrap loop inside one call), arrays and
objects add one level. -/
def zdepth : ZodType → Nat
  | ZodType.znullable t => zdepth t
  | ZodType.zoptional t => zdepth t
  | ZodType.zdefault t _ => zdepth t
  | ZodType.zarray (ZodType.zobject shape) => 1 + sdepth shape
  | ZodType.zarray e => 1 + zdepth e
  | ZodType.zobject shape => 1 + sdepth shape
  | _ => 0
termination_by t => sizeOf t
decreasing_by all_goals simp_wf <;> omega

/-- The nesting depth of an object shape: the maximum depth of its declared
fields; metadata entries contribute nothing. -/
def sdepth : List (String × Option ZodType) → Nat
  | [] => 0
  | (_, none) :: rest => sdepth rest
  | (_, some t) :: rest => max (zdepth t) (sdepth rest)
termination_by s => sizeOf s
decreasing_by all_goals simp_wf <;> omega
end

/-- Unwrapping does not increase the nesting depth. -/
theorem zdepth_unwrapGo_le (z : ZodType) (nb op : Bool) (dv : Option Value) :
    zdepth (unwrapGo z nb op dv).definition ≤ zdepth z := by
  induction z, nb, op, dv using unwrapGo.induct <;>
    simp [unwrapGo, zdepth] <;> omega

theorem zdepth_unwrapType_le (z : ZodType) :
    zdepth (unwrapType z).definition ≤ zdepth z :=
  zdepth_unwrapGo_le z false false none

mutual
/-- Fuel-bounded variant of `convertField`, consuming one unit of fuel per
recursive field conversion; `none` means the fuel (the allowed recursion
depth) was exhausted. -/
def convertFieldF : Nat → String → ZodType → Option (Except ConvError FieldSpec)
  | 0, _, _ => none
  | fuel + 1, fieldName, zodField =>
      let unwrappedData := unwrapType zodField
      match convertCoreF fuel fieldName unwrappedData.definition with
      | none => none
      | some (Except.error e) => some (Except.error e)
      | some (Except.ok coreType) =>
          some (Except.ok (annotate unwrappedData.nullable
            unwrappedData.defaultValue coreType))
termination_by fuel _ zodField => (fuel, 2 * sizeOf zodField + 1)

/-- Fuel-bounded variant of `convertCore`; consumes no fuel itself. -/
def convertCoreF : Nat → String → ZodType → Option (Except ConvError MType)
  | fuel, fieldName, ZodType.zarray element =>
      (match element with
       | ZodType.zobject shape =>
           match convertShapeF fuel shape with
           | none => none
           | some (Except.error e) => some (Except.error e)
           | some (Except.ok cs) => some (Except.ok (MType.marrayShape cs))
       | e =>
           match convertFieldF fuel fieldName e with
           | none => none
           | some (Except.error e2) => some (Except.error e2)
           | some (Except.ok f) => some (Except.ok (MType.marraySpec f)))
  | _, _, ZodType.zboolean => some (Except.ok MType.mboolean)
  | _, _, ZodType.zdate => some (Except.ok MType.mdate)
  | _, fieldName, ZodType.zdefault _ _ =>
      some (Except.error (ConvError.couldNotDetermine fieldName))
  | _, _, ZodType.zenum options => some (Except.ok (MType.menum options))
  | _, _, ZodType.znumber => some (Except.ok MType.mnumber)
  | fuel, _, ZodType.zobject shape =>
      (match convertShapeF fuel shape with
       | none => none
       | some (Except.error e) => some (Except.error e)
       | some (Except.ok defn) => some (Except.ok (MType.mschemaInst defn)))
  | _, _, ZodType.zstring => some (Except.ok MType.mstring)
  | _, _, ZodType.zunion _ => some (Except.ok MType.mmixed)
  | _, fieldName, ZodType.znull =>
      some (Except.error (ConvError.unsupportedType fieldName))
  | _, fieldName, ZodType.zliteral _ =>
      some (Except.error (ConvError.unsupportedType fieldName))
  | _, fieldName, ZodType.zsymbol =>
      some (Except.error (ConvError.unsupportedType fieldName))
  | _, fieldName, ZodType.znullable _ =>
      some (Except.error (ConvError.unsupportedType fieldName))
  | _, fieldName, ZodType.zoptional _ =>
      some (Except.error (ConvError.unsupportedType fieldName))
termination_by fuel _ definition => (fuel, 2 * sizeOf definition)

/-- Fuel-bounded variant of `convertShape`; consumes no fuel itself. -/
def convertShapeF :
    Nat → List (String × Option ZodType) →
      Option (Except ConvError (List (String × FieldSpec)))
  | _, [] => some (Except.ok [])
  | fuel, (_, none) :: rest => convertShapeF fuel rest
  | fuel, (key, some zodField) :: rest =>
      match convertFieldF fuel key zodField with
      | none => none
      | some (Except.error e) => some (Except.error e)
      | some (Except.ok f) =>
          match convertShapeF fuel rest with
          | none => none
          | some (Except.error e) => some (Except.error e)
          | some (Except.ok rest2) => some (Except.ok ((key, f) :: rest2))
termination_by fuel s => (fuel, 2 * sizeOf s)
end

/-- Fuel-bounded variant of `createSchema`. -/
def createSchemaF (fuel : Nat) (zodObject : List (String × Option ZodType))
    (modelName : Option String) (connection : Option Connection) :
    Option (Except ConvError CreateSchemaResult) :=
  match convertShapeF fuel zodObject with
  | none => none
  | some (Except.error e) => some (Except.error e)
  | some (Except.ok convertedShape) =>
      let schema : MongooseSchema := ⟨convertedShape⟩
      match connection, modelName with
      | some conn, some name =>
          if name = "" then some (Except.ok (CreateSchemaResult.schemaOnly schema))
          else some (Except.ok
            (CreateSchemaResult.withModel ⟨name, conn, schema⟩ schema))
      | _, _ => some (Except.ok (CreateSchemaResult.schemaOnly schema))

/-- On a non-object element, the array branch converts the element through
`convertField`. -/
theorem convertCore_array_nonobject (name : String) (e : ZodType)
    (hne : isZodObjectB e = false) :
    convertCore name (ZodType.zarray e) =
      convertField name e >>= fun f => pure (MType.marraySpec f) := by
  cases e <;> first
    | (simp [convertCore]; done)
    | simp [isZodObjectB] at hne

/-- Fuel-bounded counterpart of `convertCore_array_nonobject`. -/
theorem convertCoreF_array_nonobject (fuel : Nat) (name : String) (e : ZodType)
    (hne : isZodObjectB e = false) :
    convertCoreF fuel name (ZodType.zarray e) =
      match convertFieldF fuel name e with
      | none => none
      | some (Except.error e2) => some (Except.error e2)
      | some (Except.ok f) => some (Except.ok (MType.marraySpec f)) := by
  cases e <;> first
    | (simp [convertCoreF]; done)
    | simp [isZodObjectB] at hne

/-- On a non-object element, one array level adds one to the nesting
depth. -/
theorem zdepth_array_nonobject (e : ZodType) (hne : isZodObjectB e = false) :
    zdepth (ZodType.zarray e) = 1 + zdepth e := by
  cases e <;> first
    | (simp [zdepth]; done)
    | simp [isZodObjectB] at hne

/-- With enough fuel for every field of the shape, the fuel-bounded walk
agrees with the total walk. -/
theorem fuelShape_agree (fuel : Nat)
    (hP : ∀ (name : String) (z : ZodType), zdepth z < fuel →
      convertFieldF fuel name z = some (convertField name z)) :
    ∀ s : List (String × Option ZodType), sdepth s < fuel →
      convertShapeF fuel s = some (convertShape s) := by
  intro s
  induction s with
  | nil =>
      intro hs
      simp [convertShapeF, convertShape, epure]
  | cons hd rest ih =>
      intro hs
      obtain ⟨k, o⟩ := hd
      cases o with
      | none =>
          simp only [sdepth] at hs
          simp only [convertShapeF, convertShape]
          exact ih hs
      | some z =>
          simp only [sdepth] at hs
          have hz : zdepth z < fuel := lt_of_le_of_lt (le_max_left _ _) hs
          have hr : sdepth rest < fuel := lt_of_le_of_lt (le_max_right _ _) hs
          simp only [convertShapeF, convertShape]
          rw [hP k z hz]
          cases hf : convertField k z with
          | error e => simp [ebind_error]
          | ok f =>
              rw [ih hr]
              cases hsr : convertShape rest with
              | error e => simp [ebind_ok, ebind_error]
              | ok fs => simp [ebind_ok, epure]

/-- With enough fuel for the core's nesting depth, the fuel-bounded core
dispatch agrees with the total one. -/
theorem fuelCore_agree (fuel : Nat)
    (hP : ∀ (name : String) (z : ZodType), zdepth z < fuel →
      convertFieldF fuel name z = some (convertField name z)) :
    ∀ (name : String) (d : ZodType), zdepth d ≤ fuel →
      convertCoreF fuel name d = some (convertCore name d) := by
  intro name d hd
  cases d with
  | zarray element =>
      by_cases hobj : isZodObjectB element = true
      · obtain ⟨shape, rfl⟩ : ∃ shape, element = ZodType.zobject shape := by
          cases element <;> simp [isZodObjectB] at hobj
          exact ⟨_, rfl⟩
        have hs : sdepth shape < fuel := by
          simp only [zdepth] at hd
          omega
        simp only [convertCoreF, convertCore]
        rw [fuelShape_agree fuel hP shape hs]
        cases hsr : convertShape shape with
        | error e => simp [ebind_error]
        | ok fs => simp [ebind_ok, epure]
      · have hne : isZodObjectB element = false := by
          cases h2 : isZodObjectB element
          · rfl
          · exact absurd h2 hobj
        have hz : zdepth element < fuel := by
          rw [zdepth_array_nonobject element hne] at hd
          omega
        rw [convertCoreF_array_nonobject fuel name element hne,
          convertCore_array_nonobject name element hne,
          hP name element hz]
        cases hf : convertField name element with
        | error e => simp [ebind_error]
        | ok f => simp [ebind_ok, epure]
  | zobject shape =>
      have hs : sdepth shape < fuel := by
        simp only [zdepth] at hd
        omega
      simp only [convertCoreF, convertCore]
      rw [fuelShape_agree fuel hP shape hs]
      cases hsr : convertShape shape with
      | error e => simp [ebind_error]
      | ok fs => simp [ebind_ok, epure]
  | _ => simp [convertCoreF, convertCore, epure]

/-- With fuel exceeding the input's nesting depth, the fuel-bounded
converter agrees with the total converter; the recursion therefore
terminates within nesting-depth many recursive calls. -/
theorem fuelField_agree :
    ∀ (fuel : Nat) (name : String) (z : ZodType), zdepth z < fuel →
      convertFieldF fuel name z = some (convertField name z) := by
  intro fuel
  induction fuel with
  | zero => intro name z h; omega
  | succ fuel ih =>
      intro name z h
      have hcore : zdepth (unwrapType z).definition ≤ fuel := by
        have h1 := zdepth_unwrapType_le z
        omega
      simp only [convertFieldF]
      rw [convertField_eq,
        fuelCore_agree fuel ih name (unwrapType z).definition hcore]
      cases hc : convertCore name (unwrapType z).definition with
      | error e => simp
      | ok ct => simp

/-- C8: for every (finite, hence acyclic) descriptor tree the conversion
terminates — `convertField` and `createSchema` are total functions of the
input — and the recursion depth is bounded by the nesting depth of the
input: running the converter with any recursion-depth budget exceeding the
input's nesting depth yields the full converter's result rather than fuel
exhaustion. -/
theorem conversion_terminates_at_nesting_depth :
    (∀ (fuel : Nat) (name : String) (z : ZodType), zdepth z < fuel →
        convertFieldF fuel name z = some (convertField name z)) ∧
    (∀ (fuel : Nat) (s : List (String × Option ZodType)) (mn : Option String)
        (conn : Option Connection), sdepth s < fuel →
        createSchemaF fuel s mn conn = some (createSchema s mn conn)) := by
  refine ⟨fuelField_agree, ?_⟩
  intro fuel s mn conn hs
  have hsh := fuelShape_agree fuel (fuelField_agree fuel) s hs
  unfold createSchemaF createSchema
  rw [hsh]
  cases hsr : convertShape s with
  | error e => simp [ebind_error]
  | ok fields =>
      rw [ebind_ok]
      cases conn with
      | none => simp [epure]
      | some c =>
          cases mn with
          | none => simp [epure]
          | some nm => by_cases hnm : nm = "" <;> simp [hnm, epure]

/-- Witness for the termination bound at concrete inputs: depth-0 string
field and a one-field shape both finish with one unit of recursion
budget. -/
theorem conversion_terminates_witness :
    convertFieldF 1 "name" ZodType.zstring =
      some (convertField "name" ZodType.zstring) ∧
    createSchemaF 1 [("name", some ZodType.zstring)] none none =
      some (createSchema [("name", some ZodType.zstring)] none none) :=
  ⟨conversion_terminates_at_nesting_depth.1 1 "name" ZodType.zstring
      (by simp [zdepth]),
   conversion_terminates_at_nesting_depth.2 1 [("name", some ZodType.zstring)]
      none none (by simp [sdepth, zdepth])⟩
